import Mathlib

/-!
Verification of the Alexia chat client (Polyoxy/Alexia-Refactored) against its
natural-language specification.

The development shallowly embeds the Python sources:
- `src/alexia/core/session.py` (ChatSession: response parsing, the main loop,
  working-directory tracking),
- `src/alexia/tools/registry.py` and `src/alexia/tools/tool.py` (tool catalog),
- `src/alexia/core/process_manager.py` (ManagedProcess / ProcessManager).

JSON values are modelled by the inductive `JValue`; Python's `json.loads` is an
external library routine and is modelled as an abstract `decode` function
(`String → Option JValue`, `none` = `JSONDecodeError`), which the theorems
quantify over or instantiate with concrete finite tables.  Console, network and
OS effects (the LLM completions, the confirmation prompt, `os.path` tests,
process signals) are inputs of the embedding, collected in `StepEnv`: one value
of `StepEnv` fixes every external answer a single loop iteration can observe.
Machine integers do not occur on the verified paths; process ids are `Nat`.
-/

namespace Alexia

/-! ## JSON data model -/

/-- A decoded JSON value, the result of a successful `json.loads`.
Objects are association lists with distinct keys (Python dicts). -/
inductive JValue where
  | null
  | bool (b : Bool)
  | num (n : Int)
  | str (s : String)
  | arr (elems : List JValue)
  | obj (fields : List (String × JValue))

/-- Lookup in an association list, as Python `d[k]` / `d.get(k)` on a dict
with distinct keys. -/
def alist_get {κ α : Type} [DecidableEq κ] : List (κ × α) → κ → Option α
  | [], _ => none
  | (k2, v) :: rest, k => if k2 = k then some v else alist_get rest k

/-- Python `d[k] = v` on a dict: replace the key in place or append it. -/
def alist_set {κ α : Type} [DecidableEq κ] : List (κ × α) → κ → α → List (κ × α)
  | [], k, v => [(k, v)]
  | (k2, v2) :: rest, k, v =>
      if k2 = k then (k, v) :: rest else (k2, v2) :: alist_set rest k v

/-- Python `del d[k]` on a dict with distinct keys: drop every pair at the key. -/
def alist_erase {κ α : Type} [DecidableEq κ] : List (κ × α) → κ → List (κ × α)
  | [], _ => []
  | (k2, v) :: rest, k =>
      if k2 = k then alist_erase rest k else (k2, v) :: alist_erase rest k

/-- Python truthiness of a decoded JSON value (`if tool_request:`). -/
def jtruthy : JValue → Bool
  | .null => false
  | .bool b => b
  | .num n => !(n == 0)
  | .str s => !(s == "")
  | .arr elems => !elems.isEmpty
  | .obj fields => !fields.isEmpty

/-- `isinstance(data, dict) and "tool_name" in data`: the shape check
`_parse_tool_request` applies before returning a decoded value
(session.py lines 169, 181). -/
def isToolDict : JValue → Bool
  | .obj fields => (alist_get fields "tool_name").isSome
  | _ => false

/-! ## Python string primitives

The loop manipulates `str` values with `strip`, `split`, `find`/`rfind`,
`startswith` and the `in` operator.  They are embedded as structurally
recursive functions on `List Char` so that every theorem below can be
evaluated by the kernel. -/

/-- The characters Python's `str.strip()` removes (ASCII whitespace). -/
def pyIsSpace (c : Char) : Bool :=
  c = ' ' ∨ c = '\t' ∨ c = '\n' ∨ c = '\r' ∨ c = '\x0b' ∨ c = '\x0c'

/-- Python `s.strip()` on the character list. -/
def trimChars (l : List Char) : List Char :=
  ((l.dropWhile pyIsSpace).reverse.dropWhile pyIsSpace).reverse

/-- Python `s.strip()`. -/
def pyStrip (s : String) : String := ⟨trimChars s.data⟩

/-- Python `pat in s` (substring containment). -/
def hasSub (pat : List Char) : List Char → Bool
  | [] => pat.isEmpty
  | c :: rest => pat.isPrefixOf (c :: rest) || hasSub pat rest

/-- The remainder of `l` after the first occurrence of `pat`:
Python `s.split(pat)[1]` up to the next occurrence of `pat`, which
`takeBefore` below never reaches because `pat` itself starts with the
terminator searched for next.  `none` when `pat` does not occur. -/
def dropThrough (pat : List Char) : List Char → Option (List Char)
  | [] => none
  | c :: rest =>
      if pat.isPrefixOf (c :: rest) then some (List.drop pat.length (c :: rest))
      else dropThrough pat rest

/-- The prefix of `l` before the first occurrence of `pat`:
Python `s.split(pat)[0]`. -/
def takeBefore (pat : List Char) : List Char → List Char
  | [] => []
  | c :: rest =>
      if pat.isPrefixOf (c :: rest) then [] else c :: takeBefore pat rest

/-- Python `s[s.find(c1) : s.rfind(c2) + 1]` for `c1 = '{'`, `c2 = '}'`:
the slice from the first opening brace through the last closing brace
(session.py line 179).  Empty when the braces do not pair up. -/
def braceSlice (l : List Char) : List Char :=
  (((l.dropWhile (fun c => !(c == '{'))).reverse.dropWhile
      (fun c => !(c == '}'))).reverse)

/-- Python `s.startswith(str(c))` for a one-character pattern. -/
def startsWithChar (s : String) (c : Char) : Bool :=
  match s.data with
  | [] => false
  | a :: _ => a = c

/-- Python `s.lower()` (ASCII). -/
def lowerStr (s : String) : String := ⟨s.data.map Char.toLower⟩

/-- The opening fence tag `_parse_tool_request` searches for
(session.py line 164). -/
def fenceTag : List Char := "```json".data

/-- The closing fence searched for after the tag (session.py line 167). -/
def fenceEnd : List Char := "```".data

/-! ## Response Parser: `ChatSession._parse_tool_request` -/

/-- The fenced extraction of session.py line 167:
`response.split("```json")[1].split("```")[0].strip()`, `none` when the
tag does not occur. -/
def fence_extract (r : List Char) : Option (List Char) :=
  match dropThrough fenceTag r with
  | some tail => some (trimChars (takeBefore fenceEnd tail))
  | none => none

/-- The acceptance test both decode attempts apply (session.py lines
169 and 181): keep a decoded value only when it is a dict carrying
`tool_name`; a decode failure or any other shape is dropped. -/
def checkTool : Option JValue → Option JValue
  | some d => if isToolDict d then some d else none
  | none => none

/-- The markdown-fence attempt of session.py lines 164-172 on the stripped
response `r`: when the tag occurs, decode what stands between the first
opening fence and the next closing fence; a failed decode or a wrong shape
yields `none` (the Python handler swallows the exception). -/
def fencedAttempt (decode : String → Option JValue) (r : List Char) :
    Option JValue :=
  if hasSub fenceTag r then
    match fence_extract r with
    | some js => checkTool (decode ⟨js⟩)
    | none => none
  else none

/-- `ChatSession._parse_tool_request` (session.py lines 156-192).
`decode` stands for `json.loads`; `none` models a raised
`JSONDecodeError`.  A markdown-fenced attempt whose decode fails, or
whose value is not a dict with a `tool_name` key, falls through to the
brace-slice attempt, exactly as the Python control flow does; every
failure path returns `none` (the Python function catches all its
exceptions and returns `None`). -/
def parse_tool_request (decode : String → Option JValue) (response : String) :
    Option JValue :=
  match fencedAttempt decode (trimChars response.data) with
  | some d => some d
  | none =>
      if '{' ∈ trimChars response.data ∧ '}' ∈ trimChars response.data then
        checkTool (decode ⟨braceSlice (trimChars response.data)⟩)
      else none

/-- Modelled from the spec (§4.3 rule 4), which has no counterpart in the
source: "A decoded value qualifies as a Plan only if it is a mapping
containing a `plan` field whose value is a sequence, and every element of
that sequence is itself a mapping." -/
def specIsPlan : JValue → Bool
  | .obj fields =>
      match alist_get fields "plan" with
      | some (.arr steps) =>
          steps.all (fun s => match s with | .obj _ => true | _ => false)
      | _ => false
  | _ => false

/-- A decode function that respects JSON syntax at least this far: a string
decoding to an object contains an opening and a closing brace.  Any real
JSON decoder satisfies this; `json.loads` does. -/
def DecodeRespectsBraces (decode : String → Option JValue) : Prop :=
  ∀ s fields, decode s = some (JValue.obj fields) →
    '{' ∈ s.data ∧ '}' ∈ s.data

/-! ## Tool catalog: `tool.py` and `registry.py`

`Tool.func` is a Python `Callable` and has no data-level embedding; tool
bodies are invoked through `StepEnv.toolExec` below.  `args_schema` is
prompt-generation data and takes no part in any verified operation, so the
embedded record keeps the two fields the catalog logic reads. -/

/-- The `Tool` dataclass (tool.py), restricted to the fields the registry
and the loop inspect. -/
structure ToolDecl where
  name : String
  description : String
deriving DecidableEq

/-- `ToolRegistry` (registry.py): `self._tools`, a name-keyed dict in
insertion order. -/
structure ToolRegistry where
  tools : List (String × ToolDecl)
deriving DecidableEq

/-- `ToolRegistry.__init__(tools=...)`: the dict comprehension
`{tool.name: tool for tool in tools}`. -/
def mkRegistry (ts : List ToolDecl) : ToolRegistry :=
  ⟨ts.foldl (fun acc t => alist_set acc t.name t) []⟩

/-- `ToolRegistry.get_tool` (registry.py line 22): `self._tools.get(name)`. -/
def ToolRegistry.get_tool (r : ToolRegistry) (name : String) : Option ToolDecl :=
  alist_get r.tools name

/-- `ToolRegistry.register` (registry.py lines 16-20).  The first component
is the raised `ValueError` message (`none` = no exception); the second is
the registry state when the call returns or the exception propagates — the
`raise` happens before the assignment, so on a duplicate the mapping is
exactly the input. -/
def ToolRegistry.register (r : ToolRegistry) (t : ToolDecl) :
    Option String × ToolRegistry :=
  if (alist_get r.tools t.name).isSome then
    (some ("Tool with name '" ++ t.name ++ "' is already registered."), r)
  else
    (none, ⟨r.tools ++ [(t.name, t)]⟩)

/-- `read_file_tool` (file_system.py lines 22-33), name and description. -/
def read_file_tool : ToolDecl :=
  ⟨"read_file",
   "Reads the entire content of a specified file. Use this when the user asks to open, read, summarize, or view a file."⟩

/-- `list_directory_tool` (file_system.py lines 83-102). -/
def list_directory_tool : ToolDecl :=
  ⟨"list_directory",
   "Lists the contents of a directory. Use this when the user asks to see what's in a folder, list files, or explore a directory."⟩

/-- `write_file_tool` (file_system.py lines 223-249). -/
def write_file_tool : ToolDecl :=
  ⟨"write_file",
   "Writes content to a file. Can create new files, overwrite existing ones, or append to them. Use this when the user asks to create, write, or save content to a file."⟩

/-- `change_directory_tool` (file_system.py lines 210-221). -/
def change_directory_tool : ToolDecl :=
  ⟨"change_directory",
   "Changes the current working directory. Use this when you need to navigate to a different directory. The path can be absolute or relative to the current directory."⟩

/-- The registry `ChatSession.__init__` builds (session.py lines 63-68). -/
def session_registry : ToolRegistry :=
  mkRegistry [read_file_tool, list_directory_tool, write_file_tool,
    change_directory_tool]

/-! ## Session state and its environment -/

/-- One conversation turn: an element of `self.messages`
(`{"role": ..., "content": ...}`). -/
structure Turn where
  role : String
  content : String
deriving DecidableEq

/-- The mutable session state the loop reads and writes: `self.messages`,
`self.current_dir` and `self.system_prompt`.  (`self.session_memory` mirrors
`current_dir` and accumulates presentation-only command history; it is not
read by any verified operation and is not modelled.) -/
structure SessionState where
  messages : List Turn
  current_dir : String
  system_prompt : String
deriving DecidableEq

/-- The per-session constants `_update_system_prompt` interpolates:
`config.system_prompt`, the `platform` probes taken at startup, and the
registry's generated tool prompt. -/
structure SessionCtx where
  config_system_prompt : String
  os_system : String
  os_release : String
  python_version : String
  tool_prompt : String
deriving DecidableEq

/-- `ChatSession._update_system_prompt` (session.py lines 74-91): rebuild
`self.system_prompt` from the constants and the current directory. -/
def update_system_prompt (ctx : SessionCtx) (st : SessionState) : SessionState :=
  ⟨st.messages, st.current_dir,
    ctx.config_system_prompt ++ "\n\n" ++
    "System Information:\n" ++
    "- OS: " ++ ctx.os_system ++ " " ++ ctx.os_release ++ "\n" ++
    "- Current Directory: " ++ st.current_dir ++ "\n" ++
    "- Python: " ++ ctx.python_version ++ "\n" ++
    "\nYou have access to the following tools:" ++ "\n\n" ++
    ctx.tool_prompt ++ "\n\n" ++
    "Remember the current directory and OS context when performing operations. " ++
    "Always use absolute paths or paths relative to the current directory.\n" ++
    "The current working directory has been set to the user's home directory."⟩

/-- Everything outside the session state that one loop iteration can
observe, fixed up front: `json.loads` (`decode`), the two possible model
completions of the iteration, the confirmation answer, the tool bodies, and
the `os` / `os.path` answers. -/
structure StepEnv where
  /-- `json.loads`; `none` models a raised `JSONDecodeError`. -/
  decode : String → Option JValue
  /-- the completion streamed for the user turn (`_get_llm_response`). -/
  llm_response : String
  /-- the completion streamed after a tool result is folded in. -/
  final_response : String
  /-- the answer `prompt_for_confirmation` returns. -/
  confirm : Bool
  /-- `tool.func(**arguments)`: `Except.error` models a raised exception. -/
  toolExec : String → List (String × JValue) → Except String String
  /-- `os.getcwd()` as observed after a shell command. -/
  getcwd : String
  /-- `os.path.expanduser("~")`. -/
  home : String
  /-- `os.path.isabs`. -/
  isabs : String → Bool
  /-- `os.path.abspath(os.path.join(cur, p))`. -/
  joinAbs : String → String → String
  /-- `os.path.isdir`. -/
  isdir : String → Bool
  /-- `os.getcwd()` right after a successful `os.chdir(p)`. -/
  canon : String → String

/-! ## Working-directory update: `ChatSession._update_current_dir` -/

/-- The target-string normalization of session.py lines 198-200 applied to
the decoded argument value: the literal `"~"` or any falsy value becomes the
home directory; a truthy non-string reaches `os.path.isabs` and raises,
which the enclosing handler turns into failure (`none`). -/
def cd_target_str (home : String) (nd : JValue) : Option String :=
  match nd with
  | .str s => if s = "~" ∨ s = "" then some home else some s
  | other => if jtruthy other then none else some home

/-- The full target resolution of session.py lines 198-204: `~`/falsy
normalization, then `os.path.abspath(os.path.join(current_dir, ...))` for a
relative path. -/
def resolveCd (env : StepEnv) (cur : String) (nd : JValue) : Option String :=
  (cd_target_str env.home nd).map
    (fun s => if env.isabs s then s else env.joinAbs cur s)

/-- `ChatSession._update_current_dir` (session.py lines 194-221): `false`
when the resolved target is not an existing directory (or resolution
raised), in which case nothing is touched; on success `os.chdir`, then
`self.current_dir = os.getcwd()` and the system-prompt rebuild.
`os.chdir` on a path `os.path.isdir` accepted is taken to succeed (a
race-induced `chdir` failure would be caught by the same handler and
also return `false` with the state untouched). -/
def update_current_dir (env : StepEnv) (ctx : SessionCtx) (st : SessionState)
    (nd : JValue) : Bool × SessionState :=
  match resolveCd env st.current_dir nd with
  | none => (false, st)
  | some s2 =>
      if env.isdir s2 then
        (true, update_system_prompt ctx
          ⟨st.messages, env.canon s2, st.system_prompt⟩)
      else (false, st)

/-! ## One iteration of `ChatSession.run` -/

/-- How the iteration leaves the loop: `continued` = the `while True` body
ran to a `continue` or to its end, `ended` = `break` on `/exit` or `/quit`,
`crashed` = an exception no handler inside the loop catches (only reachable
when the model hands back a truthy non-mapping, or a mapping whose
`arguments` value is a truthy non-mapping on the `change_directory` path). -/
inductive StepFlow where
  | continued
  | ended
  | crashed
deriving DecidableEq

/-- The observable outcome of one loop iteration: the session state it
leaves behind, the tool implementations it actually invoked (name and
keyword arguments), and how it left the loop body. -/
structure StepOut where
  state : SessionState
  executed : List (String × List (String × JValue))
  flow : StepFlow

/-- session.py lines 352-364: the direct-JSON attempt (the whole stripped
response when it starts with a brace and mentions `tool_name`), then the
`_parse_tool_request` fallback when that produced nothing truthy, then the
final truthiness gate of line 366.  `some` is a truthy parsed value. -/
def classify_response (decode : String → Option JValue) (response_text : String) :
    Option JValue :=
  let direct : Option JValue :=
    if startsWithChar response_text '{' &&
       hasSub "tool_name".data response_text.data then
      decode response_text
    else none
  let tool_request : Option JValue :=
    match direct with
    | some v => if jtruthy v then some v else parse_tool_request decode response_text
    | none => parse_tool_request decode response_text
  match tool_request with
  | some v => if jtruthy v then some v else none
  | none => none

/-- session.py lines 367-375: `tool_request.get("tool_name")` followed by
`self.tool_registry.get_tool(tool_name)`; the lookup succeeds only for a
string naming a registered tool. -/
def requestedTool (fields : List (String × JValue)) : Option String :=
  match alist_get fields "tool_name" with
  | some (.str s) => if (session_registry.get_tool s).isSome then some s else none
  | _ => none

/-- `tool_request.get("arguments", {})` (session.py line 368). -/
def argumentsOf (fields : List (String × JValue)) : JValue :=
  (alist_get fields "arguments").getD (JValue.obj [])

/-- The `change_directory` special case of session.py lines 378-406:
`arguments.get` on a non-mapping raises outside every handler; otherwise a
falsy `directory_path` defaults to home, the user is asked, `n` cancels
without touching anything, `y` runs `_update_current_dir`. -/
def cdBranch (env : StepEnv) (ctx : SessionCtx) (st1 : SessionState)
    (arguments : JValue) : StepOut :=
  match arguments with
  | .obj afields =>
      let ndv := (alist_get afields "directory_path").getD (JValue.str "")
      let nd := if jtruthy ndv then ndv else JValue.str env.home
      if env.confirm then
        let r := update_current_dir env ctx st1 nd
        ⟨r.2, [("change_directory", afields)], .continued⟩
      else ⟨st1, [], .continued⟩
  | _ => ⟨st1, [], .crashed⟩

/-- The generic tool flow of session.py lines 408-447: confirmation, then
`tool.func(**arguments)` inside `try`; a rejection or a raising tool body
leaves the state as it stood after the user turn was appended; a successful
result is folded back as a user turn and answered by a final assistant
turn. -/
def toolBranch (env : StepEnv) (st1 : SessionState) (name : String)
    (arguments : JValue) : StepOut :=
  if env.confirm then
    match arguments with
    | .obj afields =>
        match env.toolExec name afields with
        | .ok result =>
            ⟨⟨st1.messages ++
                [⟨"user",
                  "Tool '" ++ name ++ "' was executed and returned:\n---\n" ++
                  result ++
                  "\n---\nBased on this, please provide the final answer to the user."⟩,
                 ⟨"assistant", env.final_response⟩],
              st1.current_dir, st1.system_prompt⟩,
             [(name, afields)], .continued⟩
        | .error _ => ⟨st1, [(name, afields)], .continued⟩
    | _ => ⟨st1, [], .continued⟩
  else ⟨st1, [], .continued⟩

/-- session.py lines 366-451: dispatch on the classified response.  `st1`
already carries the appended user turn. -/
def handleResponse (env : StepEnv) (ctx : SessionCtx) (st1 : SessionState) :
    StepOut :=
  match classify_response env.decode (pyStrip env.llm_response) with
  | none =>
      ⟨⟨st1.messages ++ [⟨"assistant", env.llm_response⟩],
        st1.current_dir, st1.system_prompt⟩, [], .continued⟩
  | some req =>
      match req with
      | .obj fields =>
          match requestedTool fields with
          | none => ⟨st1, [], .continued⟩
          | some name =>
              if name = "change_directory" then
                cdBranch env ctx st1 (argumentsOf fields)
              else toolBranch env st1 name (argumentsOf fields)
      | _ => ⟨st1, [], .crashed⟩

/-- The shell-escape branch of session.py lines 301-340 (`!` input): a bare
`!` is skipped, `cd ` updates the directory state in place, anything else
runs through `_execute_shell_command` after which `current_dir` is
re-synced with `os.getcwd()`.  The subprocess itself, and the nested `cd`
special case inside `_execute_shell_command` (reachable only for a doubled
`!!cd` prefix, and ending in the same chdir the re-sync observes), are
absorbed into the `getcwd` oracle.  Conversation history is never touched
here. -/
def shellStep (env : StepEnv) (ctx : SessionCtx) (st : SessionState)
    (command : String) : StepOut :=
  if command = "" then ⟨st, [], .continued⟩
  else if "cd ".data.isPrefixOf command.data then
    let nd0 := pyStrip ⟨command.data.drop 3⟩
    let nd := if nd0 = "" then env.home else nd0
    ⟨(update_current_dir env ctx st (JValue.str nd)).2, [], .continued⟩
  else
    if env.getcwd = st.current_dir then ⟨st, [], .continued⟩
    else
      ⟨update_system_prompt ctx ⟨st.messages, env.getcwd, st.system_prompt⟩,
       [], .continued⟩

/-- One full iteration of the `while True` loop of `ChatSession.run`
(session.py lines 288-455), as a function of the prior state and the line
the user typed. -/
def runStep (env : StepEnv) (ctx : SessionCtx) (st : SessionState)
    (user_input : String) : StepOut :=
  if pyStrip user_input = "" then ⟨st, [], .continued⟩
  else if lowerStr user_input = "/exit" ∨ lowerStr user_input = "/quit" then
    ⟨st, [], .ended⟩
  else if startsWithChar user_input '!' then
    shellStep env ctx st (pyStrip ⟨user_input.data.drop 1⟩)
  else
    handleResponse env ctx
      ⟨st.messages ++ [⟨"user", user_input⟩], st.current_dir, st.system_prompt⟩

/-! ## Process Supervisor: `process_manager.py`

The OS side of a managed process is an oracle: `exitsWithin t` answers
whether `process.wait(timeout=t)` returns before the timeout.  The output
queue filled by the reader thread is modelled as the list of lines buffered
at the moment an operation runs. -/

/-- `ManagedProcess` (process_manager.py lines 16-24): the command, whether
`self.process` is set, the `is_running` flag, and the drained-output
buffer. -/
structure ManagedProcess where
  command : String
  has_process : Bool
  is_running : Bool
  output_buffer : List String
deriving DecidableEq

/-- A signal sent to the OS process. -/
inductive Signal where
  | terminate
  | kill
deriving DecidableEq

/-- The fixed grace period of `self.process.wait(timeout=5)`
(process_manager.py line 60). -/
def GRACE_PERIOD_SECONDS : Nat := 5

/-- `ManagedProcess.stop` (process_manager.py lines 55-63): only a process
that exists and is still flagged running is signalled — `terminate` first,
then `kill` exactly when it does not exit within the grace period — and its
flag cleared; otherwise nothing happens. -/
def ManagedProcess.stop (exitsWithin : Nat → Bool) (p : ManagedProcess) :
    ManagedProcess × List Signal :=
  if p.has_process && p.is_running then
    (⟨p.command, p.has_process, false, p.output_buffer⟩,
     if exitsWithin GRACE_PERIOD_SECONDS then [Signal.terminate]
     else [Signal.terminate, Signal.kill])
  else (p, [])

/-- `ManagedProcess.read_output` (process_manager.py lines 65-73): drain
the queue. -/
def ManagedProcess.read_output (p : ManagedProcess) :
    List String × ManagedProcess :=
  (p.output_buffer, ⟨p.command, p.has_process, p.is_running, []⟩)

/-- The `ProcessManager` table `self.processes` (pid-keyed dict). -/
structure ProcessManager where
  processes : List (Nat × ManagedProcess)
deriving DecidableEq

/-- `ProcessManager.stop_process` (process_manager.py lines 94-100):
`(returned bool, table afterwards, signals sent)`.  A tracked pid is
stopped and deleted; an unknown pid returns `False` with nothing done. -/
def ProcessManager.stop_process (exitsWithin : Nat → Bool)
    (pm : ProcessManager) (pid : Nat) :
    Bool × ProcessManager × List Signal :=
  match alist_get pm.processes pid with
  | some p =>
      let r := p.stop exitsWithin
      (true, ⟨alist_erase pm.processes pid⟩, r.2)
  | none => (false, pm, [])

/-- `ProcessManager.get_output` (process_manager.py lines 102-108), the
`wait_for_output_seconds` sleep elided: `(returned lines or None, table
afterwards)`. -/
def ProcessManager.get_output (pm : ProcessManager) (pid : Nat) :
    Option (List String) × ProcessManager :=
  match alist_get pm.processes pid with
  | some p =>
      let r := p.read_output
      (some r.1, ⟨alist_set pm.processes pid r.2⟩)
  | none => (none, pm)

/-- `ProcessManager.list_pids` (process_manager.py lines 110-112). -/
def ProcessManager.list_pids (pm : ProcessManager) : List Nat :=
  pm.processes.map (fun e => e.1)

/-! ## The `ProcessManager()` singleton: `__new__` over an object heap

`ProcessManager.__new__` (process_manager.py lines 79-83) stores the first
allocated object in the class attribute `_instance` and returns it from
every later construction expression.  Object identity is modelled with a
heap: an address indexes the list of `ProcessManager` objects ever
allocated, and `_instance` holds an address or `none`. -/

/-- The program-wide state `__new__` reads and writes: the allocated
`ProcessManager` objects (each reduced to its `processes` table) and the
class attribute `_instance`. -/
structure PMWorld where
  heap : List (List (Nat × ManagedProcess))
  class_instance : Option Nat
deriving DecidableEq

/-- The world before any `ProcessManager()` runs: `_instance = None`
(process_manager.py line 77). -/
def initialPMWorld : PMWorld := ⟨[], none⟩

/-- `_instance`, when set, addresses an allocated object. -/
def wfWorld (w : PMWorld) : Bool :=
  match w.class_instance with
  | none => true
  | some a => a < w.heap.length

/-- The table of the object at address `a`. -/
def heapTable (w : PMWorld) (a : Nat) : List (Nat × ManagedProcess) :=
  (w.heap.get? a).getD []

/-- Overwrite the table of the object at address `a`. -/
def heapSet (w : PMWorld) (a : Nat) (tbl : List (Nat × ManagedProcess)) :
    PMWorld :=
  ⟨w.heap.set a tbl, w.class_instance⟩

/-- `ProcessManager()` — `ProcessManager.__new__` (process_manager.py lines
79-83): allocate and remember the instance the first time, hand the
remembered instance back ever after.  Returns the address of the object the
expression evaluates to. -/
def pmNew (w : PMWorld) : Nat × PMWorld :=
  match w.class_instance with
  | some a => (a, w)
  | none => (w.heap.length, ⟨w.heap ++ [[]], some w.heap.length⟩)

/-- `start_process` (process_manager.py lines 85-92) invoked through the
reference at address `a`, for a spawn that succeeded with OS pid `pid`:
`self.processes[process.pid] = process` on a fresh running process. -/
def pmStartProcess (w : PMWorld) (a : Nat) (pid : Nat) (cmd : String) :
    PMWorld :=
  heapSet w a (alist_set (heapTable w a) pid ⟨cmd, true, true, []⟩)

/-- `stop_process` invoked through the reference at address `a`. -/
def pmStop (exitsWithin : Nat → Bool) (w : PMWorld) (a : Nat) (pid : Nat) :
    Bool × PMWorld :=
  let r := ProcessManager.stop_process exitsWithin ⟨heapTable w a⟩ pid
  (r.1, heapSet w a r.2.1.processes)

/-- `get_output` invoked through the reference at address `a`. -/
def pmGetOutput (w : PMWorld) (a : Nat) (pid : Nat) :
    Option (List String) × PMWorld :=
  let r := ProcessManager.get_output ⟨heapTable w a⟩ pid
  (r.1, heapSet w a r.2.processes)

/-- `list_pids` invoked through the reference at address `a`. -/
def pmListPids (w : PMWorld) (a : Nat) : List Nat :=
  ProcessManager.list_pids ⟨heapTable w a⟩

/-! ## Concrete scenario data

Closed inputs on which the theorems below are instantiated: a session
context, a fresh state, environment builders, and finite `json.loads`
tables for three model outputs (a valid `read_file` call, a call naming an
unregistered tool, and a multi-step plan object). -/

/-- A concrete session context. -/
def ctx0 : SessionCtx := ⟨"You are Alexia.", "Linux", "6.1", "3.11.2", "- read_file(file_path: string): reads a file"⟩

/-- A fresh session state with empty history. -/
def st0 : SessionState := ⟨[], "/home/user", "initial prompt"⟩

/-- An environment with the given decoder, model completion and
confirmation answer; every other oracle is fixed harmlessly. -/
def mkEnv (decode : String → Option JValue) (llm : String) (confirm : Bool) :
    StepEnv :=
  ⟨decode, llm, "Understood.", confirm, fun _ _ => Except.ok "ok",
   "/home/user", "/home/user", fun _ => true, fun _ p => p, fun _ => false,
   fun p => p⟩

/-- The model output `\x7b"tool_name": "read_file", "arguments":
\x7b"file_path": "notes.txt"\x7d\x7d`. -/
def reqJson : String :=
  "\x7b\"tool_name\": \"read_file\", \"arguments\": \x7b\"file_path\": \"notes.txt\"\x7d\x7d"

/-- The value `json.loads` gives `reqJson`. -/
def reqVal : JValue :=
  JValue.obj [("tool_name", JValue.str "read_file"),
    ("arguments", JValue.obj [("file_path", JValue.str "notes.txt")])]

/-- The model output `\x7b"tool_name": "frobnicate", "arguments": \x7b\x7d\x7d`:
a syntactically valid call naming a tool the catalog does not know. -/
def unknownJson : String :=
  "\x7b\"tool_name\": \"frobnicate\", \"arguments\": \x7b\x7d\x7d"

/-- The value `json.loads` gives `unknownJson`. -/
def unknownVal : JValue :=
  JValue.obj [("tool_name", JValue.str "frobnicate"),
    ("arguments", JValue.obj [])]

/-- The model output `\x7b"plan": [\x7b"tool_name": "read_file",
"arguments": \x7b\x7d\x7d]\x7d`: the spec's plan wire format (§6), a mapping
whose `plan` field is a sequence of mappings. -/
def planJson : String :=
  "\x7b\"plan\": [\x7b\"tool_name\": \"read_file\", \"arguments\": \x7b\x7d\x7d]\x7d"

/-- The value `json.loads` gives `planJson`. -/
def planVal : JValue :=
  JValue.obj [("plan", JValue.arr
    [JValue.obj [("tool_name", JValue.str "read_file"),
      ("arguments", JValue.obj [])]])]

/-- A `json.loads` table decoding exactly the three scenario strings. -/
def decodeTable (s : String) : Option JValue :=
  if s = reqJson then some reqVal
  else if s = unknownJson then some unknownVal
  else if s = planJson then some planVal
  else none

/-- A decoder on which every parse fails (models `json.loads` raising on
everything it is shown). -/
def decodeNone : String → Option JValue := fun _ => none

/-- A model output that wraps `reqJson` in a tagged markdown fence between
prose, session.py's primary extraction case. -/
def fencedResponse : String :=
  "Sure, I will read it.\n```json\n" ++ reqJson ++ "\n```\nLet me know."

/-! ## Lemmas about the string primitives and association lists -/

theorem mem_of_mem_dropWhile {α : Type} {p : α → Bool} {l : List α} {x : α}
    (h : x ∈ l.dropWhile p) : x ∈ l := by
  induction l with
  | nil => exact absurd h (List.not_mem_nil x)
  | cons a t ih =>
      rw [List.dropWhile] at h
      cases hp : p a with
      | true => rw [hp] at h; exact List.mem_cons_of_mem _ (ih h)
      | false => rw [hp] at h; exact h

theorem mem_of_mem_trimChars {l : List Char} {x : Char}
    (h : x ∈ trimChars l) : x ∈ l := by
  unfold trimChars at h
  rw [List.mem_reverse] at h
  have h2 := mem_of_mem_dropWhile h
  rw [List.mem_reverse] at h2
  exact mem_of_mem_dropWhile h2

theorem mem_of_mem_takeBefore {pat l : List Char} {x : Char}
    (h : x ∈ takeBefore pat l) : x ∈ l := by
  induction l with
  | nil => exact absurd h (List.not_mem_nil x)
  | cons a t ih =>
      rw [takeBefore] at h
      by_cases hp : pat.isPrefixOf (a :: t) = true
      · rw [if_pos hp] at h; cases h
      · rw [if_neg hp, List.mem_cons] at h
        rcases h with rfl | h
        · exact List.mem_cons_self x t
        · exact List.mem_cons_of_mem _ (ih h)

theorem mem_of_mem_dropThrough {pat l t : List Char} {x : Char}
    (h : dropThrough pat l = some t) (hx : x ∈ t) : x ∈ l := by
  induction l with
  | nil => simp [dropThrough] at h
  | cons a rest ih =>
      rw [dropThrough] at h
      by_cases hp : pat.isPrefixOf (a :: rest) = true
      · rw [if_pos hp] at h
        cases h
        exact List.mem_of_mem_drop hx
      · rw [if_neg hp] at h
        exact List.mem_cons_of_mem _ (ih h)

theorem hasSub_of_dropThrough {pat l t : List Char}
    (h : dropThrough pat l = some t) : hasSub pat l = true := by
  induction l with
  | nil => simp [dropThrough] at h
  | cons a rest ih =>
      rw [dropThrough] at h
      rw [hasSub]
      by_cases hp : pat.isPrefixOf (a :: rest) = true
      · simp [hp]
      · rw [if_neg hp] at h
        simp [ih h]

theorem dropThrough_of_hasSub {pat l : List Char}
    (h : hasSub pat l = true) (hne : pat ≠ []) :
    ∃ t, dropThrough pat l = some t := by
  induction l with
  | nil =>
      rw [hasSub] at h
      exact absurd (List.isEmpty_iff.mp h) hne
  | cons a rest ih =>
      rw [hasSub] at h
      rw [dropThrough]
      by_cases hp : pat.isPrefixOf (a :: rest) = true
      · exact ⟨_, if_pos hp⟩
      · rw [if_neg hp]
        refine ih ?_
        simpa [hp] using h

theorem checkTool_shape {o : Option JValue} {d : JValue}
    (h : checkTool o = some d) : isToolDict d = true := by
  cases o with
  | none => exact absurd h (by simp [checkTool])
  | some x =>
      rw [checkTool] at h
      by_cases hx : isToolDict x = true
      · rw [if_pos hx] at h; cases h; exact hx
      · rw [if_neg hx] at h; cases h

theorem isToolDict_obj {d : JValue} (h : isToolDict d = true) :
    ∃ fields, d = JValue.obj fields := by
  cases d with
  | obj fields => exact ⟨fields, rfl⟩
  | null => simp [isToolDict] at h
  | bool b => simp [isToolDict] at h
  | num n => simp [isToolDict] at h
  | str s => simp [isToolDict] at h
  | arr es => simp [isToolDict] at h

theorem alist_get_erase_self {κ α : Type} [DecidableEq κ]
    (l : List (κ × α)) (k : κ) : alist_get (alist_erase l k) k = none := by
  induction l with
  | nil => rfl
  | cons e rest ih =>
      rw [alist_erase]
      by_cases hk : e.1 = k
      · rw [if_pos hk]; exact ih
      · rw [if_neg hk, alist_get, if_neg hk]; exact ih

theorem alist_get_set_self {κ α : Type} [DecidableEq κ]
    (l : List (κ × α)) (k : κ) (v : α) :
    alist_get (alist_set l k v) k = some v := by
  induction l with
  | nil => simp [alist_set, alist_get]
  | cons e rest ih =>
      rw [alist_set]
      by_cases hk : e.1 = k
      · rw [if_pos hk, alist_get, if_pos rfl]
      · rw [if_neg hk, alist_get, if_neg hk]; exact ih

theorem mem_keys_alist_set {κ α : Type} [DecidableEq κ]
    (l : List (κ × α)) (k : κ) (v : α) :
    k ∈ (alist_set l k v).map (fun e => e.1) := by
  induction l with
  | nil => simp [alist_set]
  | cons e rest ih =>
      rw [alist_set]
      by_cases hk : e.1 = k
      · rw [if_pos hk]; simp
      · rw [if_neg hk]; simpa using Or.inr ih

theorem alist_get_append_fresh {κ α : Type} [DecidableEq κ]
    {l : List (κ × α)} {k : κ} (v : α) (h : alist_get l k = none) :
    alist_get (l ++ [(k, v)]) k = some v := by
  induction l with
  | nil => simp [alist_get]
  | cons e rest ih =>
      rw [alist_get] at h
      rw [List.cons_append, alist_get]
      by_cases hk : e.1 = k
      · rw [if_pos hk] at h; cases h
      · rw [if_neg hk] at h
        rw [if_neg hk]
        exact ih h

theorem mem_of_mem_braceSlice {l : List Char} {x : Char}
    (h : x ∈ braceSlice l) : x ∈ l := by
  unfold braceSlice at h
  rw [List.mem_reverse] at h
  have h2 := mem_of_mem_dropWhile h
  rw [List.mem_reverse] at h2
  exact mem_of_mem_dropWhile h2

theorem checkTool_some {o : Option JValue} {d : JValue}
    (h : checkTool o = some d) : o = some d := by
  cases o with
  | none => cases h
  | some x =>
      rw [checkTool] at h
      by_cases hx : isToolDict x = true
      · rw [if_pos hx] at h; exact h
      · rw [if_neg hx] at h; cases h

theorem fencedAttempt_shape {decode : String → Option JValue}
    {r : List Char} {d : JValue} (h : fencedAttempt decode r = some d) :
    isToolDict d = true := by
  unfold fencedAttempt at h
  split at h
  · split at h
    · exact checkTool_shape h
    · cases h
  · cases h

theorem fencedAttempt_origin {decode : String → Option JValue}
    {r : List Char} {d : JValue} (h : fencedAttempt decode r = some d) :
    ∃ js : List Char, decode ⟨js⟩ = some d ∧ ∀ x, x ∈ js → x ∈ r := by
  unfold fencedAttempt at h
  split at h
  · split at h
    next js heq =>
      refine ⟨js, checkTool_some h, fun x hx => ?_⟩
      unfold fence_extract at heq
      split at heq
      next tail htail =>
        cases heq
        exact mem_of_mem_dropThrough htail
          (mem_of_mem_takeBefore (mem_of_mem_trimChars hx))
      next => cases heq
    next => cases h
  · cases h

theorem parse_tool_request_shape {decode : String → Option JValue}
    {response : String} {d : JValue}
    (h : parse_tool_request decode response = some d) : isToolDict d = true := by
  unfold parse_tool_request at h
  split at h
  next x heq =>
    cases h
    exact fencedAttempt_shape heq
  next heq =>
    split at h
    · exact checkTool_shape h
    · cases h

theorem parse_tool_request_origin {decode : String → Option JValue}
    {response : String} {d : JValue}
    (h : parse_tool_request decode response = some d) :
    ∃ js : List Char, decode ⟨js⟩ = some d ∧
      ∀ x, x ∈ js → x ∈ response.data := by
  unfold parse_tool_request at h
  split at h
  next x heq =>
    cases h
    obtain ⟨js, hd, hmem⟩ := fencedAttempt_origin heq
    exact ⟨js, hd, fun x hx => mem_of_mem_trimChars (hmem x hx)⟩
  next heq =>
    split at h
    · cases hdec : decode ⟨braceSlice (trimChars response.data)⟩ with
      | none => rw [hdec] at h; cases h
      | some v =>
          rw [hdec, checkTool] at h
          by_cases hv : isToolDict v = true
          · rw [if_pos hv] at h
            cases h
            exact ⟨braceSlice (trimChars response.data), hdec, fun x hx =>
              mem_of_mem_trimChars (mem_of_mem_braceSlice hx)⟩
          · rw [if_neg hv] at h; cases h
    · cases h

theorem checkTool_none {decode : String → Option JValue} {s : String}
    (h : decode s = none) : checkTool (decode s) = none := by
  rw [h]; rfl

theorem fencedAttempt_none {decode : String → Option JValue} {r : List Char}
    (hf : ∀ js, fence_extract r = some js → decode ⟨js⟩ = none) :
    fencedAttempt decode r = none := by
  unfold fencedAttempt
  split
  · split
    next js heq => rw [hf js heq]; rfl
    next => rfl
  · rfl

theorem alist_get_append_other {κ α : Type} [DecidableEq κ]
    (l : List (κ × α)) (k : κ) (v : α) {n : κ} (hn : n ≠ k) :
    alist_get (l ++ [(k, v)]) n = alist_get l n := by
  induction l with
  | nil =>
      simp only [List.nil_append, alist_get]
      rw [if_neg (fun h => hn h.symm)]
  | cons e rest ih =>
      rw [List.cons_append, alist_get, alist_get]
      by_cases he : e.1 = n
      · rw [if_pos he, if_pos he]
      · rw [if_neg he, if_neg he]; exact ih

theorem get?_set_self {α : Type} (l : List α) (i : Nat) (x : α)
    (h : i < l.length) : (l.set i x).get? i = some x := by
  induction l generalizing i with
  | nil => cases h
  | cons a t ih =>
      cases i with
      | zero => rfl
      | succ j => exact ih j (Nat.lt_of_succ_lt_succ h)

theorem get?_concat_self {α : Type} (l : List α) (x : α) :
    (l ++ [x]).get? l.length = some x := by
  induction l with
  | nil => rfl
  | cons a t ih => exact ih

theorem heapTable_heapSet_self {w : PMWorld} {a : Nat}
    (tbl : List (Nat × ManagedProcess)) (ha : a < w.heap.length) :
    heapTable (heapSet w a tbl) a = tbl := by
  unfold heapTable heapSet
  rw [get?_set_self w.heap a tbl ha]
  rfl

/-- Through the instance at the remembered address, a freshly started
process is visible to every operation, and a construction expression
returns that same address without touching the world. -/
theorem pmVisibility {w : PMWorld} {a : Nat} (ha : a < w.heap.length)
    (hc : w.class_instance = some a) (pid : Nat) (cmd : String)
    (exitsWithin : Nat → Bool) :
    pmNew w = (a, w) ∧
    pmNew (pmStartProcess w a pid cmd) = (a, pmStartProcess w a pid cmd) ∧
    pid ∈ pmListPids (pmStartProcess w a pid cmd) a ∧
    (pmGetOutput (pmStartProcess w a pid cmd) a pid).1.isSome = true ∧
    (pmStop exitsWithin (pmStartProcess w a pid cmd) a pid).1 = true := by
  have hT : heapTable (pmStartProcess w a pid cmd) a =
      alist_set (heapTable w a) pid ⟨cmd, true, true, []⟩ := by
    unfold pmStartProcess
    exact heapTable_heapSet_self _ ha
  refine ⟨?_, ?_, ?_, ?_, ?_⟩
  · unfold pmNew
    rw [hc]
  · unfold pmStartProcess heapSet pmNew
    simp only [hc]
  · unfold pmListPids ProcessManager.list_pids
    rw [hT]
    exact mem_keys_alist_set _ _ _
  · unfold pmGetOutput ProcessManager.get_output
    rw [hT, alist_get_set_self]
    rfl
  · unfold pmStop ProcessManager.stop_process
    rw [hT, alist_get_set_self]

/-! ## The claims -/

/-- C2, counterexample: `planJson` decodes to `planVal`, a mapping whose
`plan` field is a sequence of mappings — the spec's Plan shape — yet
`_parse_tool_request` returns `None` for it: the parser never produces a
Plan result, contradicting the claimed
`parse(text) -> ToolInvocationRequest | Plan | None` contract. -/
theorem C2_plan_never_returned_cex :
    decodeTable planJson = some planVal ∧ specIsPlan planVal = true ∧
    parse_tool_request decodeTable planJson = none :=
  ⟨rfl, rfl, rfl⟩

/-- C2, amended: the parser has only two results, a Tool Invocation
Request or None — every non-None value it returns is a mapping carrying a
`tool_name` field, so a decoded value qualifying only as a Plan (no
tool-name field) is answered with None, never with a Plan. -/
theorem C2_parse_results_amended (decode : String → Option JValue)
    (response : String) (d : JValue)
    (h : parse_tool_request decode response = some d) :
    isToolDict d = true :=
  parse_tool_request_shape h

theorem C2_parse_results_amended_witness : isToolDict reqVal = true :=
  C2_parse_results_amended decodeTable fencedResponse reqVal rfl

/-- C3: `_parse_tool_request` is total (the embedding is a function — the
Python body catches every exception it can raise) and returns None on
every failure: a text without a brace pair yields None (for any decoder
that only accepts objects containing braces, as `json.loads` does), any
non-None result is a mapping with a tool-name field, and when every
extracted substring fails to decode the result is None. -/
theorem C3_parse_never_raises (decode : String → Option JValue)
    (hdec : DecodeRespectsBraces decode) (response : String) :
    (¬ ('{' ∈ response.data ∧ '}' ∈ response.data) →
        parse_tool_request decode response = none)
  ∧ (∀ d, parse_tool_request decode response = some d → isToolDict d = true)
  ∧ ((∀ js, fence_extract (trimChars response.data) = some js →
        decode ⟨js⟩ = none) →
      decode ⟨braceSlice (trimChars response.data)⟩ = none →
      parse_tool_request decode response = none) := by
  refine ⟨?_, fun d h => parse_tool_request_shape h, ?_⟩
  · intro hb
    cases hp : parse_tool_request decode response with
    | none => rfl
    | some d =>
        exfalso
        obtain ⟨fields, rfl⟩ := isToolDict_obj (parse_tool_request_shape hp)
        obtain ⟨js, hd, hmem⟩ := parse_tool_request_origin hp
        obtain ⟨h1, h2⟩ := hdec ⟨js⟩ fields hd
        exact hb ⟨hmem _ h1, hmem _ h2⟩
  · intro hf hb2
    unfold parse_tool_request
    rw [fencedAttempt_none hf]
    show (if '{' ∈ trimChars response.data ∧ '}' ∈ trimChars response.data then
        checkTool (decode ⟨braceSlice (trimChars response.data)⟩)
      else none) = none
    split
    · rw [hb2]; rfl
    · rfl

theorem C3_parse_never_raises_witness :
    parse_tool_request decodeNone "hello world" = none :=
  (C3_parse_never_raises decodeNone (fun s fields h => Option.noConfusion h)
    "hello world").1 (by decide)

/-- C4: when the stripped model output carries a ```` ```json ```` tag,
the parser decodes exactly the stripped content between the first opening
fence and the next closing fence, and a well-formed tool-call object found
there is returned whatever prose surrounds the fence and whatever the
brace-substring extraction would have produced: the fenced attempt takes
precedence. -/
theorem C4_fenced_extraction (decode : String → Option JValue)
    (response : String) (tail : List Char) (d : JValue)
    (h1 : dropThrough fenceTag (trimChars response.data) = some tail)
    (h2 : decode ⟨trimChars (takeBefore fenceEnd tail)⟩ = some d)
    (h3 : isToolDict d = true) :
    parse_tool_request decode response = some d := by
  have hfe : fence_extract (trimChars response.data) =
      some (trimChars (takeBefore fenceEnd tail)) := by
    unfold fence_extract; rw [h1]
  have hfa : fencedAttempt decode (trimChars response.data) = some d := by
    unfold fencedAttempt
    rw [if_pos (hasSub_of_dropThrough h1), hfe]
    show checkTool (decode ⟨trimChars (takeBefore fenceEnd tail)⟩) = some d
    rw [h2, checkTool, if_pos h3]
  unfold parse_tool_request
  rw [hfa]

theorem C4_fenced_extraction_witness :
    parse_tool_request decodeTable fencedResponse = some reqVal :=
  C4_fenced_extraction decodeTable fencedResponse
    (("\n" ++ reqJson ++ "\n```\nLet me know.").data) reqVal rfl rfl rfl

/-- C1, counterexample: a fresh session, user line `"hi"`, the model
answering with the `read_file` call `reqJson`, confirmation answered `n`
(`confirm := false`): the loop iteration leaves history one turn longer
than before the exchange — the just-appended user turn is not rolled
back, so the turn counts before and after the rejection differ. -/
theorem C1_rejection_keeps_user_turn_cex :
    (runStep (mkEnv decodeTable reqJson false) ctx0 st0 "hi").state.messages ≠
      st0.messages ∧
    (runStep (mkEnv decodeTable reqJson false) ctx0 st0
        "hi").state.messages.length = st0.messages.length + 1 := by
  decide

/-- C1, amended: a rejected confirmation leaves the just-appended user
turn in the history — the turn count grows by exactly one over the state
before the exchange — and changes nothing else: no tool runs, no further
turn is appended, the working directory and system prompt stay, and the
loop continues. -/
theorem C1_rejection_amended (env : StepEnv) (ctx : SessionCtx)
    (st : SessionState) (u : String) (fields : List (String × JValue))
    (name : String)
    (h1 : ¬ pyStrip u = "")
    (h2 : ¬ (lowerStr u = "/exit" ∨ lowerStr u = "/quit"))
    (h3 : startsWithChar u '!' = false)
    (h4 : classify_response env.decode (pyStrip env.llm_response) =
        some (JValue.obj fields))
    (h5 : requestedTool fields = some name)
    (h6 : env.confirm = false)
    (h7 : name = "change_directory" →
        ∃ a, argumentsOf fields = JValue.obj a) :
    runStep env ctx st u =
      ⟨⟨st.messages ++ [⟨"user", u⟩], st.current_dir, st.system_prompt⟩,
       [], .continued⟩ := by
  unfold runStep
  rw [if_neg h1, if_neg h2, if_neg (by simp [h3])]
  simp only [handleResponse, h4, h5]
  by_cases hn : name = "change_directory"
  · obtain ⟨a, ha⟩ := h7 hn
    rw [if_pos hn]
    simp only [cdBranch, ha, h6]
    rw [if_neg Bool.false_ne_true]
  · rw [if_neg hn]
    unfold toolBranch
    rw [if_neg (by simp [h6])]

theorem C1_rejection_amended_witness :
    runStep (mkEnv decodeTable reqJson false) ctx0 st0
        "please read notes.txt" =
      ⟨⟨st0.messages ++ [⟨"user", "please read notes.txt"⟩],
        st0.current_dir, st0.system_prompt⟩, [], .continued⟩ :=
  C1_rejection_amended (mkEnv decodeTable reqJson false) ctx0 st0
    "please read notes.txt"
    [("tool_name", JValue.str "read_file"),
     ("arguments", JValue.obj [("file_path", JValue.str "notes.txt")])]
    "read_file" (by decide) (by decide) rfl rfl rfl rfl
    (fun h => absurd h (by decide))

/-- C5, counterexample: the model requests the unregistered tool
`frobnicate`; the loop reports the unknown tool and continues, but the
history after the turn is one user turn longer than before the triggering
input was appended — it does not equal the pre-append history. -/
theorem C5_unknown_tool_history_cex :
    (runStep (mkEnv decodeTable unknownJson true) ctx0 st0 "go").state.messages ≠
      st0.messages ∧
    (runStep (mkEnv decodeTable unknownJson true) ctx0 st0
        "go").state.messages.length = st0.messages.length + 1 := by
  decide

/-- C5, amended: on a parsed tool request whose name the catalog does not
know, the loop discards the pending request without executing anything
and stays in the loop; the history retains the appended user turn —
exactly one turn more than before the input — and nothing else changes. -/
theorem C5_unknown_tool_amended (env : StepEnv) (ctx : SessionCtx)
    (st : SessionState) (u : String) (fields : List (String × JValue))
    (h1 : ¬ pyStrip u = "")
    (h2 : ¬ (lowerStr u = "/exit" ∨ lowerStr u = "/quit"))
    (h3 : startsWithChar u '!' = false)
    (h4 : classify_response env.decode (pyStrip env.llm_response) =
        some (JValue.obj fields))
    (h5 : requestedTool fields = none) :
    runStep env ctx st u =
      ⟨⟨st.messages ++ [⟨"user", u⟩], st.current_dir, st.system_prompt⟩,
       [], .continued⟩ := by
  unfold runStep
  rw [if_neg h1, if_neg h2, if_neg (by simp [h3])]
  simp only [handleResponse, h4, h5]

theorem C5_unknown_tool_amended_witness :
    runStep (mkEnv decodeTable unknownJson true) ctx0 st0 "do something" =
      ⟨⟨st0.messages ++ [⟨"user", "do something"⟩],
        st0.current_dir, st0.system_prompt⟩, [], .continued⟩ :=
  C5_unknown_tool_amended (mkEnv decodeTable unknownJson true) ctx0 st0
    "do something"
    [("tool_name", JValue.str "frobnicate"), ("arguments", JValue.obj [])]
    (by decide) (by decide) rfl rfl rfl

/-- C6: `ToolRegistry.register` raises the duplicate-name `ValueError`
exactly when a tool of that name is already registered; when it raises,
the catalog mapping is exactly what it was (the raise precedes the
assignment), and on success the tool is reachable under its name while
every other name resolves as before. -/
theorem C6_register_duplicate (r : ToolRegistry) (t : ToolDecl) :
    ((r.register t).1.isSome ↔ r.get_tool t.name ≠ none)
  ∧ (r.get_tool t.name ≠ none → (r.register t).2 = r)
  ∧ (r.get_tool t.name = none →
      (r.register t).1 = none ∧
      (r.register t).2.get_tool t.name = some t ∧
      ∀ n, n ≠ t.name → (r.register t).2.get_tool n = r.get_tool n) := by
  unfold ToolRegistry.register ToolRegistry.get_tool
  by_cases h : (alist_get r.tools t.name).isSome = true
  · rw [if_pos h]
    refine ⟨?_, fun _ => rfl, fun hn => ?_⟩
    · simpa using Option.isSome_iff_ne_none.mp h
    · rw [hn] at h; cases h
  · rw [if_neg h]
    have hnone : alist_get r.tools t.name = none :=
      Option.not_isSome_iff_eq_none.mp (by simpa using h)
    refine ⟨?_, fun hne => absurd hnone hne, fun _ => ⟨rfl, ?_, ?_⟩⟩
    · simp [hnone]
    · exact alist_get_append_fresh t hnone
    · intro n hn
      exact alist_get_append_other r.tools t.name t hn

theorem C6_register_duplicate_witness :
    (session_registry.register read_file_tool).2 = session_registry ∧
    (session_registry.register ⟨"open_url", "Opens a URL."⟩).2.get_tool
        "open_url" = some ⟨"open_url", "Opens a URL."⟩ :=
  ⟨(C6_register_duplicate session_registry read_file_tool).2.1 (by decide),
   ((C6_register_duplicate session_registry
      ⟨"open_url", "Opens a URL."⟩).2.2 (by decide)).2.1⟩

/-- C7: `stop_process` on a pid absent from the supervisor's table
returns `False` (NotFound), sends no signal, and leaves the table — the
whole manager state — exactly as it was. -/
theorem C7_stop_unknown_pid (exitsWithin : Nat → Bool)
    (pm : ProcessManager) (pid : Nat)
    (h : alist_get pm.processes pid = none) :
    ProcessManager.stop_process exitsWithin pm pid = (false, pm, []) := by
  unfold ProcessManager.stop_process
  rw [h]

theorem C7_stop_unknown_pid_witness :
    ProcessManager.stop_process (fun _ => true)
        ⟨[(7, ⟨"python -m http.server", true, true, []⟩)]⟩ 99 =
      (false, ⟨[(7, ⟨"python -m http.server", true, true, []⟩)]⟩, []) :=
  C7_stop_unknown_pid (fun _ => true)
    ⟨[(7, ⟨"python -m http.server", true, true, []⟩)]⟩ 99 rfl

/-- C8, counterexample: pid 7 is present in the table but its reader
thread has already flipped `is_running` to `False` (the process exited on
its own).  `stop_process` still returns success and removes the entry,
but sends no graceful-termination request at all — `ManagedProcess.stop`
skips the `terminate`/`wait`/`kill` sequence for a non-running process —
contradicting the claim that stop on every present pid first requests
graceful termination. -/
theorem C8_stop_no_terminate_cex :
    alist_get (⟨[(7, ⟨"sleep 100", true, false, []⟩)]⟩ :
        ProcessManager).processes 7 = some ⟨"sleep 100", true, false, []⟩ ∧
    (ProcessManager.stop_process (fun _ => true)
        ⟨[(7, ⟨"sleep 100", true, false, []⟩)]⟩ 7).1 = true ∧
    (ProcessManager.stop_process (fun _ => true)
        ⟨[(7, ⟨"sleep 100", true, false, []⟩)]⟩ 7).2.2 = [] :=
  ⟨rfl, rfl, rfl⟩

/-- C8, amended: for every pid present in the table, `stop_process`
returns success and removes the entry; when the managed process is still
live (`process` set, `is_running` true) it first requests graceful
termination and force-kills exactly when the process does not exit within
the fixed 5-second grace period; when the process has already terminated
on its own, no signal is sent at all. -/
theorem C8_stop_tracked_amended (exitsWithin : Nat → Bool)
    (pm : ProcessManager) (pid : Nat) (p : ManagedProcess)
    (h : alist_get pm.processes pid = some p) :
    (ProcessManager.stop_process exitsWithin pm pid).1 = true ∧
    alist_get (ProcessManager.stop_process exitsWithin pm
        pid).2.1.processes pid = none ∧
    (p.has_process = true → p.is_running = true →
      (ProcessManager.stop_process exitsWithin pm pid).2.2 =
        Signal.terminate ::
          (if exitsWithin GRACE_PERIOD_SECONDS then [] else [Signal.kill])) ∧
    (p.is_running = false →
      (ProcessManager.stop_process exitsWithin pm pid).2.2 = []) := by
  unfold ProcessManager.stop_process
  rw [h]
  refine ⟨rfl, alist_get_erase_self pm.processes pid, ?_, ?_⟩
  · intro hp hr
    show (ManagedProcess.stop exitsWithin p).2 = _
    unfold ManagedProcess.stop
    rw [if_pos (by rw [hp, hr]; rfl)]
    cases hex : exitsWithin GRACE_PERIOD_SECONDS with
    | true => rfl
    | false => rfl
  · intro hr
    show (ManagedProcess.stop exitsWithin p).2 = []
    unfold ManagedProcess.stop
    rw [if_neg (by rw [hr]; simp)]

theorem C8_stop_tracked_amended_witness :
    (ProcessManager.stop_process (fun _ => false)
        ⟨[(4, ⟨"python -m http.server 8000", true, true, []⟩)]⟩ 4).1 = true ∧
    alist_get (ProcessManager.stop_process (fun _ => false)
        ⟨[(4, ⟨"python -m http.server 8000", true, true, []⟩)]⟩
        4).2.1.processes 4 = none ∧
    (ProcessManager.stop_process (fun _ => false)
        ⟨[(4, ⟨"python -m http.server 8000", true, true, []⟩)]⟩ 4).2.2 =
      [Signal.terminate, Signal.kill] := by
  have h := C8_stop_tracked_amended (fun _ => false)
    ⟨[(4, ⟨"python -m http.server 8000", true, true, []⟩)]⟩ 4
    ⟨"python -m http.server 8000", true, true, []⟩ rfl
  exact ⟨h.1, h.2.1, h.2.2.1 rfl rfl⟩

/-- C9: when the `cd` target — after the `~`/empty normalization and the
make-absolute step against the session's current directory — is not an
existing directory, `_update_current_dir` returns `False` (the
DirectoryError-shaped result its callers report) and the session state,
its current working directory and its system prompt included, is exactly
what it was. -/
theorem C9_cd_invalid_target (env : StepEnv) (ctx : SessionCtx)
    (st : SessionState) (nd : JValue) (s2 : String)
    (h1 : resolveCd env st.current_dir nd = some s2)
    (h2 : env.isdir s2 = false) :
    update_current_dir env ctx st nd = (false, st) := by
  unfold update_current_dir
  rw [h1]
  show (if env.isdir s2 = true then _ else (false, st)) = (false, st)
  rw [if_neg (by rw [h2]; exact Bool.false_ne_true)]

theorem C9_cd_invalid_target_witness :
    update_current_dir (mkEnv decodeNone "" false) ctx0 st0
        (JValue.str "../missing") = (false, st0) :=
  C9_cd_invalid_target (mkEnv decodeNone "" false) ctx0 st0
    (JValue.str "../missing") "../missing" rfl rfl

/-- C10: `ProcessManager()` is a singleton over any well-formed program
state (`_instance`, when set, addresses an allocated object): a second
construction expression returns the identical instance and leaves the
world untouched, and a process started through the first reference is
seen by `list_pids`, `get_output` and `stop_process` through the
reference any later construction returns. -/
theorem C10_process_manager_singleton (w : PMWorld) (pid : Nat)
    (cmd : String) (exitsWithin : Nat → Bool) (hw : wfWorld w = true) :
    ((pmNew (pmNew w).2).1 = (pmNew w).1 ∧ (pmNew (pmNew w).2).2 = (pmNew w).2)
  ∧ ((pmNew (pmStartProcess (pmNew w).2 (pmNew w).1 pid cmd)).1 = (pmNew w).1
  ∧ (pmNew (pmStartProcess (pmNew w).2 (pmNew w).1 pid cmd)).2 =
      pmStartProcess (pmNew w).2 (pmNew w).1 pid cmd
  ∧ pid ∈ pmListPids (pmStartProcess (pmNew w).2 (pmNew w).1 pid cmd)
      (pmNew w).1
  ∧ (pmGetOutput (pmStartProcess (pmNew w).2 (pmNew w).1 pid cmd)
      (pmNew w).1 pid).1.isSome = true
  ∧ (pmStop exitsWithin (pmStartProcess (pmNew w).2 (pmNew w).1 pid cmd)
      (pmNew w).1 pid).1 = true) := by
  obtain ⟨heap, ci⟩ := w
  cases ci with
  | some a =>
      have ha : a < heap.length := by simpa [wfWorld] using hw
      obtain ⟨h0, h1, h2, h3, h4⟩ :=
        pmVisibility (w := ⟨heap, some a⟩) ha rfl pid cmd exitsWithin
      refine ⟨⟨rfl, rfl⟩, ?_, ?_, h2, h3, h4⟩
      · show (pmNew (pmStartProcess (⟨heap, some a⟩ : PMWorld) a pid cmd)).1 = a
        rw [h1]
      · show (pmNew (pmStartProcess (⟨heap, some a⟩ : PMWorld) a pid cmd)).2 =
            pmStartProcess (⟨heap, some a⟩ : PMWorld) a pid cmd
        rw [h1]
  | none =>
      have ha : heap.length < (heap ++ [[]]).length := by simp
      obtain ⟨h0, h1, h2, h3, h4⟩ :=
        pmVisibility (w := ⟨heap ++ [[]], some heap.length⟩) ha rfl pid cmd
          exitsWithin
      refine ⟨⟨?_, ?_⟩, ?_, ?_, h2, h3, h4⟩
      · show (pmNew (⟨heap ++ [[]], some heap.length⟩ : PMWorld)).1 =
            heap.length
        rw [h0]
      · show (pmNew (⟨heap ++ [[]], some heap.length⟩ : PMWorld)).2 =
            (⟨heap ++ [[]], some heap.length⟩ : PMWorld)
        rw [h0]
      · show (pmNew (pmStartProcess
            (⟨heap ++ [[]], some heap.length⟩ : PMWorld) heap.length pid
            cmd)).1 = heap.length
        rw [h1]
      · show (pmNew (pmStartProcess
            (⟨heap ++ [[]], some heap.length⟩ : PMWorld) heap.length pid
            cmd)).2 = pmStartProcess
            (⟨heap ++ [[]], some heap.length⟩ : PMWorld) heap.length pid cmd
        rw [h1]

theorem C10_process_manager_singleton_witness :
    (pmNew (pmNew initialPMWorld).2).1 = (pmNew initialPMWorld).1 ∧
    (pmStop (fun _ => true)
        (pmStartProcess (pmNew initialPMWorld).2 (pmNew initialPMWorld).1 5
          "python -m http.server 8000")
        (pmNew initialPMWorld).1 5).1 = true :=
  ⟨(C10_process_manager_singleton initialPMWorld 5 "python -m http.server 8000"
      (fun _ => true) rfl).1.1,
   (C10_process_manager_singleton initialPMWorld 5 "python -m http.server 8000"
      (fun _ => true) rfl).2.2.2.2.2⟩

end Alexia
